import Mathlib

/-!
Shallow embedding of `src/archiveItems.py`: a row-driven archival sweep over a
remote content service.  Pure parts (type classification, flag comparison,
JSON serialization) are translated directly; the effectful sweep is modelled
as explicit state passing over a filesystem state `FS` together with a trace
of remote-service calls, with uncaught Python exceptions modelled as an
`Option Err` that aborts the enclosing `for` loop.
-/

/-- A spreadsheet cell value as returned by openpyxl: `None`, a string, or a
non-string non-null value (number, boolean, date ...) on which `.lower()`
raises `AttributeError`. -/
inductive CellValue where
  | none
  | str (s : String)
  | other (tag : Nat)
deriving DecidableEq, Repr

/-- One inventory row (columns 1, 2, 8, 11, 12 of the sheet). -/
structure Row where
  id : String
  owner : String
  ty : String
  archiveFlagValue : CellValue
  deleteFlagValue : CellValue
deriving DecidableEq, Repr

/-- `archiveFlag = 'yes'` from the VARIABLES section. -/
def archiveFlag : String := "yes"

/-- `deleteFlag = 'yes'` from the VARIABLES section. -/
def deleteFlag : String := "yes"

/-- `lst_file_types` from the CONSTANTS section. -/
def lst_file_types : List String :=
  ["File Geodatabase", "Service Definition", "Shapefile", "CSV",
   "Mobile Map Package", "Microsoft Word", "Project Package", "Notebook",
   "PDF", "CSV Collection", "Tile Package"]

/-- `lst_export_services` from the CONSTANTS section. -/
def lst_export_services : List String := ["Feature Service"]

/-- `lst_other_services` from the CONSTANTS section. -/
def lst_other_services : List String := ["Image Service", "Scene Service"]

/-- `lst_data_apps` from the CONSTANTS section. -/
def lst_data_apps : List String :=
  ["Web Map", "Web Scene", "Web Mapping Application", "Dashboard",
   "Feature Collection"]

/-- `lst_other_apps` from the CONSTANTS section. -/
def lst_other_apps : List String := ["Form", "Web Experience", "StoryMap"]

/-- A JSON value, as manipulated by Python's `json` module. -/
inductive Json where
  | null
  | boolVal (b : Bool)
  | num (n : Int)
  | str (s : String)
  | obj (fields : List (String × Json))

/-- Escaping of one character inside a JSON string literal. -/
def jsonEscapeChar (c : Char) : String :=
  if c = '\\' then "\\\\"
  else if c = '\"' then "\\\""
  else String.singleton c

/-- Escaping applied by `json.dumps` to string contents. -/
def jsonEscape (s : String) : String :=
  String.join (s.toList.map jsonEscapeChar)

mutual
/-- `json.dumps` with default separators. -/
def Json.dumps : Json → String
  | Json.null => "null"
  | Json.boolVal true => "true"
  | Json.boolVal false => "false"
  | Json.num n => toString n
  | Json.str s => "\"" ++ jsonEscape s ++ "\""
  | Json.obj fs => "\x7b" ++ Json.dumpsFields fs ++ "\x7d"

/-- The comma-separated `"key": value` body of a serialized JSON object. -/
def Json.dumpsFields : List (String × Json) → String
  | [] => ""
  | [(k, v)] => "\"" ++ jsonEscape k ++ "\": " ++ Json.dumps v
  | (k, v) :: r =>
      "\"" ++ jsonEscape k ++ "\": " ++ Json.dumps v ++ ", " ++
        Json.dumpsFields r
end

/-- Content of a file produced under an item folder.  `jsonVal j` stands for a
file produced by `json.dump(j, f)`, i.e. whose text is the serialization of
the JSON value `j`; the other constructors stand for opaque payloads fetched
from the remote service. -/
inductive FileContent where
  | jsonVal (j : Json)
  | payload (sourceId : String)
  | exportPayload (sourceId : String)
  | resourceBundle (sourceId : String)

/-- The on-disk state under the archive root `data_dmp`: which owner folders
and item folders exist, and which files have been written (in order). -/
structure FS where
  userFolders : List String
  itemFolders : List (String × String)
  files : List (String × String × String × FileContent)

/-- `open(os.path.join(item_folder, fn), "a"); json.dump / download`: record a
new file under `{data_dmp}/{owner}/{itemId}/`. -/
def FS.addFile (fs : FS) (owner itemId fn : String) (c : FileContent) : FS :=
  { fs with files := fs.files ++ [(owner, itemId, fn, c)] }

/-- One remote-service interaction (a network call to the portal). -/
inductive RemoteCall where
  | get (id : String)
  | download (id : String)
  | getData (id : String)
  | export (id : String)
  | downloadExported (id : String)
  | relatedItems (id relType : String)
  | downloadRelated (relId : String)
  | resourcesExport (id : String)
  | delete (id : String)
deriving DecidableEq, Repr

/-- An uncaught Python exception escaping a row's processing. -/
inductive Err where
  | attributeError
  | downloadError (id : String)
  | getDataError (id : String)
deriving DecidableEq, Repr

/-- The remote item handle returned by `source.content.get`. -/
structure Item where
  title : String
  url : String
deriving DecidableEq, Repr

/-- A related item handle (id and url, as read by the Form branch). -/
structure RelItem where
  id : String
  url : String
deriving DecidableEq, Repr

/-- Behaviour of the remote content service during the sweep: which items
exist, what their data documents are, and which calls succeed or raise. -/
structure Service where
  getItem : String → Option Item
  downloadOk : String → Bool
  getDataOk : String → Bool
  dataDoc : String → Json
  exportOk : String → Bool
  exportDownloadOk : String → Bool
  exportErrMsg : String → String
  exportDownloadErrMsg : String → String
  deleteOk : String → Bool
  relatedData : String → List String
  relatedServices : String → List RelItem

/-- Result of processing one row (or a prefix of the sweep): the filesystem
state, the remote calls issued in order, and an uncaught exception if one
escaped. -/
structure StepResult where
  fs : FS
  calls : List RemoteCall
  err : Option Err

/-- Python's `str.lower()` (modelled character-wise; the flag tokens are
ASCII). -/
def strLower (s : String) : String := String.mk (s.data.map Char.toLower)

/-- The `try: if SourceItem_DeleteFlag_Value == deleteFlag: Source_item.delete()
except ...` step shared by the archiving branches: the delete call is issued
exactly when the delete cell holds the exact string `deleteFlag`; a failure of
the call itself is caught and logged, so no error escapes. -/
def deleteCalls (r : Row) : List RemoteCall :=
  if r.deleteFlagValue = CellValue.str deleteFlag then [RemoteCall.delete r.id]
  else []

/-- `SourceItem_Type in lst_file_types` branch: `Source_item.download` (not
guarded by any try), then the guarded conditional delete. -/
def fileAssetBranch (svc : Service) (fs : FS) (r : Row) : StepResult :=
  match svc.getItem r.id with
  | Option.none => ⟨fs, [RemoteCall.get r.id], Option.none⟩
  | Option.some _ =>
      if svc.downloadOk r.id then
        ⟨fs.addFile r.owner r.id ("payload_" ++ r.id) (FileContent.payload r.id),
         [RemoteCall.get r.id, RemoteCall.download r.id] ++ deleteCalls r,
         Option.none⟩
      else
        ⟨fs, [RemoteCall.get r.id, RemoteCall.download r.id],
         Option.some (Err.downloadError r.id)⟩

/-- `SourceItem_Type in lst_data_apps` branch: `get_data` (unguarded), then
`json.dump(json.dumps(text), f)` into `{type}.json`, then the guarded
conditional delete. -/
def dataAppBranch (svc : Service) (fs : FS) (r : Row) : StepResult :=
  match svc.getItem r.id with
  | Option.none => ⟨fs, [RemoteCall.get r.id], Option.none⟩
  | Option.some _ =>
      if svc.getDataOk r.id then
        ⟨fs.addFile r.owner r.id (r.ty ++ ".json")
            (FileContent.jsonVal (Json.str (Json.dumps (svc.dataDoc r.id)))),
         [RemoteCall.get r.id, RemoteCall.getData r.id] ++ deleteCalls r,
         Option.none⟩
      else
        ⟨fs, [RemoteCall.get r.id, RemoteCall.getData r.id],
         Option.some (Err.getDataError r.id)⟩

/-- The `{type}_error.json` document written on failures: a dict with exactly
the keys `itemname`, `itemid`, `download_error`. -/
def errorDoc (title id msg : String) : Json :=
  Json.obj [("itemname", Json.str title), ("itemid", Json.str id),
            ("download_error", Json.str msg)]

/-- `SourceItem_Type in lst_export_services` branch: a try block around
export, download of the exported item, and the (separately guarded) delete;
the except clause writes `{type}_error.json` and continues. -/
def exportServiceBranch (svc : Service) (fs : FS) (r : Row) : StepResult :=
  match svc.getItem r.id with
  | Option.none => ⟨fs, [RemoteCall.get r.id], Option.none⟩
  | Option.some item =>
      if svc.exportOk r.id then
        if svc.exportDownloadOk r.id then
          ⟨fs.addFile r.owner r.id ("export_" ++ r.id)
              (FileContent.exportPayload r.id),
           [RemoteCall.get r.id, RemoteCall.export r.id,
            RemoteCall.downloadExported r.id] ++ deleteCalls r,
           Option.none⟩
        else
          ⟨fs.addFile r.owner r.id (r.ty ++ "_error.json")
              (FileContent.jsonVal
                (errorDoc item.title r.id (svc.exportDownloadErrMsg r.id))),
           [RemoteCall.get r.id, RemoteCall.export r.id,
            RemoteCall.downloadExported r.id],
           Option.none⟩
      else
        ⟨fs.addFile r.owner r.id (r.ty ++ "_error.json")
            (FileContent.jsonVal
              (errorDoc item.title r.id (svc.exportErrMsg r.id))),
         [RemoteCall.get r.id, RemoteCall.export r.id],
         Option.none⟩

/-- `SourceItem_Type in lst_other_services` branch: always writes the fixed
"Unable to export this format" error document; never deletes. -/
def otherServicesBranch (svc : Service) (fs : FS) (r : Row) : StepResult :=
  match svc.getItem r.id with
  | Option.none => ⟨fs, [RemoteCall.get r.id], Option.none⟩
  | Option.some item =>
      ⟨fs.addFile r.owner r.id (r.ty ++ "_error.json")
          (FileContent.jsonVal (errorDoc item.title r.id
            "Unable to export this format. Please find source files for this service")),
       [RemoteCall.get r.id], Option.none⟩

/-- The Form sub-branch's relation manifest: for each Survey2Service related
item, two entries recording its id and its url, with a running index. -/
def relDict : Nat → List RelItem → List (String × Json)
  | _, [] => []
  | ind, ri :: rest =>
      (toString (ind + 1) ++ " relation ITEM ID for this form is ",
        Json.str ri.id) ::
      (toString (ind + 1) ++ " relation ITEM URL for this form is ",
        Json.str ri.url) ::
      relDict (ind + 1) rest

/-- The Form sub-branch's downloads of Survey2Data related items into the item
folder. -/
def addRelPayloads (owner itemId : String) (relIds : List String) (fs : FS) :
    FS :=
  relIds.foldl
    (fun acc rid => acc.addFile owner itemId ("payload_" ++ rid)
      (FileContent.payload rid)) fs

/-- `SourceItem_Type in lst_other_apps` branch: the same `get_data` JSON dump
as the data-apps branch, then either the Form relation handling or a generic
`resources.export`, then the guarded conditional delete. -/
def otherAppsBranch (svc : Service) (fs : FS) (r : Row) : StepResult :=
  match svc.getItem r.id with
  | Option.none => ⟨fs, [RemoteCall.get r.id], Option.none⟩
  | Option.some _ =>
      if svc.getDataOk r.id then
        let fs1 := fs.addFile r.owner r.id (r.ty ++ ".json")
          (FileContent.jsonVal (Json.str (Json.dumps (svc.dataDoc r.id))))
        if r.ty = "Form" then
          let fs2 := addRelPayloads r.owner r.id (svc.relatedData r.id) fs1
          let fs3 := fs2.addFile r.owner r.id (r.ty ++ "_rel_services.json")
            (FileContent.jsonVal (Json.obj (relDict 0 (svc.relatedServices r.id))))
          ⟨fs3,
           [RemoteCall.get r.id, RemoteCall.getData r.id,
            RemoteCall.relatedItems r.id "Survey2Data"] ++
             (svc.relatedData r.id).map RemoteCall.downloadRelated ++
             [RemoteCall.relatedItems r.id "Survey2Service"] ++ deleteCalls r,
           Option.none⟩
        else
          ⟨fs1.addFile r.owner r.id ("resources_" ++ r.id)
              (FileContent.resourceBundle r.id),
           [RemoteCall.get r.id, RemoteCall.getData r.id,
            RemoteCall.resourcesExport r.id] ++ deleteCalls r,
           Option.none⟩
      else
        ⟨fs, [RemoteCall.get r.id, RemoteCall.getData r.id],
         Option.some (Err.getDataError r.id)⟩

/-- Final `else` branch: the type matched no list; writes the fixed
"Export operation not supported" error document; never deletes. -/
def unclassifiedBranch (svc : Service) (fs : FS) (r : Row) : StepResult :=
  match svc.getItem r.id with
  | Option.none => ⟨fs, [RemoteCall.get r.id], Option.none⟩
  | Option.some item =>
      ⟨fs.addFile r.owner r.id (r.ty ++ "_error.json")
          (FileContent.jsonVal (errorDoc item.title r.id
            "Export operation not supported for this data type")),
       [RemoteCall.get r.id], Option.none⟩

/-- The `if/elif` chain on `SourceItem_Type`, in source order. -/
def dispatchStrategy (svc : Service) (fs : FS) (r : Row) : StepResult :=
  if r.ty ∈ lst_file_types then fileAssetBranch svc fs r
  else if r.ty ∈ lst_data_apps then dataAppBranch svc fs r
  else if r.ty ∈ lst_export_services then exportServiceBranch svc fs r
  else if r.ty ∈ lst_other_services then otherServicesBranch svc fs r
  else if r.ty ∈ lst_other_apps then otherAppsBranch svc fs r
  else unclassifiedBranch svc fs r

/-- The six strategy classes distinguished by the dispatch chain. -/
inductive TypeClass where
  | FileAsset
  | ExportableService
  | NonExportableService
  | DataApplication
  | OtherApplication
  | Unclassified
deriving DecidableEq, Repr

/-- Classification of a declared type string, read off the `if/elif` chain. -/
def classify (t : String) : TypeClass :=
  if t ∈ lst_file_types then TypeClass.FileAsset
  else if t ∈ lst_data_apps then TypeClass.DataApplication
  else if t ∈ lst_export_services then TypeClass.ExportableService
  else if t ∈ lst_other_services then TypeClass.NonExportableService
  else if t ∈ lst_other_apps then TypeClass.OtherApplication
  else TypeClass.Unclassified

/-- The strategy implementation belonging to each class. -/
def strategyFor : TypeClass → Service → FS → Row → StepResult
  | TypeClass.FileAsset => fileAssetBranch
  | TypeClass.DataApplication => dataAppBranch
  | TypeClass.ExportableService => exportServiceBranch
  | TypeClass.NonExportableService => otherServicesBranch
  | TypeClass.OtherApplication => otherAppsBranch
  | TypeClass.Unclassified => unclassifiedBranch

/-- Processing of one inventory row: the archive-flag gate (`is not None`,
then `.lower() == archiveFlag`, which raises `AttributeError` on a non-string
cell value), the lazy creation of the owner folder, the item-folder
existence/resume gate, and the type dispatch. -/
def processRow (svc : Service) (fs : FS) (r : Row) : StepResult :=
  match r.archiveFlagValue with
  | CellValue.none => ⟨fs, [], Option.none⟩
  | CellValue.other _ => ⟨fs, [], Option.some Err.attributeError⟩
  | CellValue.str s =>
      if strLower s = archiveFlag then
        let fs1 :=
          if r.owner ∈ fs.userFolders then fs
          else { fs with userFolders := r.owner :: fs.userFolders }
        if (r.owner, r.id) ∈ fs1.itemFolders then ⟨fs1, [], Option.none⟩
        else
          dispatchStrategy svc
            { fs1 with itemFolders := (r.owner, r.id) :: fs1.itemFolders } r
      else ⟨fs, [], Option.none⟩

/-- The `for i in range(2, inventory_row + 1)` loop: rows are processed in
order; an uncaught exception in a row's body terminates the loop (and the
process). -/
def runSweep (svc : Service) : FS → List Row → StepResult
  | fs, [] => ⟨fs, [], Option.none⟩
  | fs, r :: rs =>
      let s1 := processRow svc fs r
      match s1.err with
      | Option.some e => ⟨s1.fs, s1.calls, Option.some e⟩
      | Option.none =>
          let s2 := runSweep svc s1.fs rs
          ⟨s2.fs, s1.calls ++ s2.calls, s2.err⟩

/-- Outcome of a whole program run: `earlyExitCode = some c` when one of the
precondition checks called `sys.exit(c)` before the row loop. -/
structure ProgramResult where
  earlyExitCode : Option Nat
  fs : FS
  calls : List RemoteCall
  err : Option Err

/-- The program's precondition checks followed by the sweep: the inventory
Excel existence check (`sys.exit(0)` if missing), the user-verification
request (`sys.exit(0)` on an error response), the user-id comparison
(`sys.exit(0)` on mismatch), then the row loop. -/
def runProgram (inventoryExists verifyError : Bool)
    (obtainedId expectedId : String) (svc : Service) (fs0 : FS)
    (rows : List Row) : ProgramResult :=
  if inventoryExists = false then ⟨Option.some 0, fs0, [], Option.none⟩
  else if verifyError then ⟨Option.some 0, fs0, [], Option.none⟩
  else if obtainedId ≠ expectedId then ⟨Option.some 0, fs0, [], Option.none⟩
  else
    let s := runSweep svc fs0 rows
    ⟨Option.none, s.fs, s.calls, s.err⟩

/-! ### Basic facts about the branches and the dispatch chain -/

/-- Adding a file changes neither folder list. -/
theorem addFile_userFolders (fs : FS) (o i fn : String) (c : FileContent) :
    (fs.addFile o i fn c).userFolders = fs.userFolders := rfl

/-- Adding a file changes neither folder list. -/
theorem addFile_itemFolders (fs : FS) (o i fn : String) (c : FileContent) :
    (fs.addFile o i fn c).itemFolders = fs.itemFolders := rfl

/-- The Form branch's related-item downloads do not touch the owner folders. -/
theorem addRelPayloads_userFolders (o i : String) (l : List String) (fs : FS) :
    (addRelPayloads o i l fs).userFolders = fs.userFolders := by
  induction l generalizing fs with
  | nil => rfl
  | cons a t ih => simpa [addRelPayloads, FS.addFile] using ih _

/-- The Form branch's related-item downloads do not touch the item folders. -/
theorem addRelPayloads_itemFolders (o i : String) (l : List String) (fs : FS) :
    (addRelPayloads o i l fs).itemFolders = fs.itemFolders := by
  induction l generalizing fs with
  | nil => rfl
  | cons a t ih => simpa [addRelPayloads, FS.addFile] using ih _

/-- When the remote service has no item with the row's id, every branch makes
exactly the failed `content.get` call and then falls through. -/
theorem dispatch_item_none (svc : Service) (fs : FS) (r : Row)
    (h : svc.getItem r.id = Option.none) :
    dispatchStrategy svc fs r = ⟨fs, [RemoteCall.get r.id], Option.none⟩ := by
  unfold dispatchStrategy fileAssetBranch dataAppBranch exportServiceBranch
    otherServicesBranch otherAppsBranch unclassifiedBranch
  split_ifs <;> simp [h]

/-- No strategy creates or removes folders; only files are written. -/
theorem dispatch_folders (svc : Service) (fs : FS) (r : Row) :
    (dispatchStrategy svc fs r).fs.userFolders = fs.userFolders ∧
      (dispatchStrategy svc fs r).fs.itemFolders = fs.itemFolders := by
  unfold dispatchStrategy fileAssetBranch dataAppBranch exportServiceBranch
    otherServicesBranch otherAppsBranch unclassifiedBranch
  split_ifs <;>
    cases h : svc.getItem r.id <;>
      simp [FS.addFile, addRelPayloads_userFolders, addRelPayloads_itemFolders]

/-- The only exceptions escaping a strategy are the unguarded `download` and
`get_data` failures, never the `AttributeError` of the flag gate. -/
theorem dispatch_err_not_attr (svc : Service) (fs : FS) (r : Row) :
    (dispatchStrategy svc fs r).err ≠ Option.some Err.attributeError := by
  unfold dispatchStrategy fileAssetBranch dataAppBranch exportServiceBranch
    otherServicesBranch otherAppsBranch unclassifiedBranch
  split_ifs <;> cases h : svc.getItem r.id <;> simp

/-- If both unguarded remote operations (`download` and `get_data`) succeed for
the row's id, no exception escapes the strategy. -/
theorem dispatch_err_none (svc : Service) (fs : FS) (r : Row)
    (hd : svc.downloadOk r.id = true) (hg : svc.getDataOk r.id = true) :
    (dispatchStrategy svc fs r).err = Option.none := by
  unfold dispatchStrategy fileAssetBranch dataAppBranch exportServiceBranch
    otherServicesBranch otherAppsBranch unclassifiedBranch
  split_ifs <;> cases h : svc.getItem r.id <;> simp [hd, hg]

/-! ### Flag-gate lemmas -/

/-- A `None` archive cell skips the row without any effect. -/
theorem processRow_flag_none (svc : Service) (fs : FS) (r : Row)
    (h : r.archiveFlagValue = CellValue.none) :
    processRow svc fs r = ⟨fs, [], Option.none⟩ := by
  unfold processRow
  rw [h]

/-- A string archive cell that does not lowercase to the affirmative token
skips the row without any effect. -/
theorem processRow_flag_noMatch (svc : Service) (fs : FS) (r : Row) (s : String)
    (h : r.archiveFlagValue = CellValue.str s) (hs : strLower s ≠ archiveFlag) :
    processRow svc fs r = ⟨fs, [], Option.none⟩ := by
  unfold processRow
  rw [h]
  simp [hs]

/-- A non-string, non-null archive cell raises `AttributeError` at the
`.lower()` call, before any folder is created or any remote call is made. -/
theorem processRow_flag_other (svc : Service) (fs : FS) (r : Row) (tag : Nat)
    (h : r.archiveFlagValue = CellValue.other tag) :
    processRow svc fs r = ⟨fs, [], Option.some Err.attributeError⟩ := by
  unfold processRow
  rw [h]

/-- Revisiting a row whose owner and item folders both already exist skips it
entirely: no folder change, no file write, no remote call.  (The archive flag
is read, but whatever string it holds, the row goes no further.) -/
theorem processRow_skip (svc : Service) (fs : FS) (r : Row) (s : String)
    (hflag : r.archiveFlagValue = CellValue.str s)
    (huser : r.owner ∈ fs.userFolders)
    (hitem : (r.owner, r.id) ∈ fs.itemFolders) :
    processRow svc fs r = ⟨fs, [], Option.none⟩ := by
  unfold processRow
  rw [hflag]
  by_cases hs : strLower s = archiveFlag
  · simp [hs, huser, hitem]
  · simp [hs]

/-- A row is settled in a filesystem state when revisiting it can do no work:
an affirmative archive flag finds both folders already present.  A non-string,
non-null flag is never settled (it raises whenever revisited). -/
def settled (fs : FS) (r : Row) : Prop :=
  match r.archiveFlagValue with
  | CellValue.none => True
  | CellValue.str s =>
      strLower s = archiveFlag →
        r.owner ∈ fs.userFolders ∧ (r.owner, r.id) ∈ fs.itemFolders
  | CellValue.other _ => False

/-- A settled row is skipped with no state change and no remote call. -/
theorem settled_skip (svc : Service) (fs : FS) (r : Row)
    (h : settled fs r) : processRow svc fs r = ⟨fs, [], Option.none⟩ := by
  unfold settled at h
  match hflag : r.archiveFlagValue with
  | CellValue.none => exact processRow_flag_none svc fs r hflag
  | CellValue.other tag => rw [hflag] at h; exact absurd h (by simp)
  | CellValue.str s =>
      rw [hflag] at h
      by_cases hs : strLower s = archiveFlag
      · obtain ⟨h1, h2⟩ := h hs
        exact processRow_skip svc fs r s hflag h1 h2
      · exact processRow_flag_noMatch svc fs r s hflag hs

/-- Unfolding equation for the sweep over a non-empty inventory. -/
theorem runSweep_cons (svc : Service) (fs : FS) (r : Row) (rs : List Row) :
    runSweep svc fs (r :: rs) =
      match (processRow svc fs r).err with
      | Option.some e =>
          ⟨(processRow svc fs r).fs, (processRow svc fs r).calls, Option.some e⟩
      | Option.none =>
          ⟨(runSweep svc (processRow svc fs r).fs rs).fs,
           (processRow svc fs r).calls ++
             (runSweep svc (processRow svc fs r).fs rs).calls,
           (runSweep svc (processRow svc fs r).fs rs).err⟩ := rfl

/-- The sweep stops at the first row whose processing raises. -/
theorem runSweep_cons_some (svc : Service) (fs : FS) (r : Row) (rs : List Row)
    (e : Err) (he : (processRow svc fs r).err = Option.some e) :
    runSweep svc fs (r :: rs) =
      ⟨(processRow svc fs r).fs, (processRow svc fs r).calls, Option.some e⟩ := by
  rw [runSweep_cons, he]

/-- The sweep continues past a row whose processing raised nothing. -/
theorem runSweep_cons_none (svc : Service) (fs : FS) (r : Row) (rs : List Row)
    (he : (processRow svc fs r).err = Option.none) :
    runSweep svc fs (r :: rs) =
      ⟨(runSweep svc (processRow svc fs r).fs rs).fs,
       (processRow svc fs r).calls ++
         (runSweep svc (processRow svc fs r).fs rs).calls,
       (runSweep svc (processRow svc fs r).fs rs).err⟩ := by
  rw [runSweep_cons, he]

/-- Processing any row only ever adds owner folders, never removes them. -/
theorem processRow_mono_user (svc : Service) (fs : FS) (r : Row) (o : String)
    (ho : o ∈ fs.userFolders) : o ∈ (processRow svc fs r).fs.userFolders := by
  unfold processRow
  match hflag : r.archiveFlagValue with
  | CellValue.none => exact ho
  | CellValue.other tag => exact ho
  | CellValue.str s =>
      by_cases hs : strLower s = archiveFlag
      · simp only [hs, if_true]
        by_cases hu : r.owner ∈ fs.userFolders
        · simp only [hu, if_true]
          by_cases hi : (r.owner, r.id) ∈ fs.itemFolders
          · simp only [hi, if_true]; exact ho
          · simp only [hi, if_false]
            rw [(dispatch_folders svc _ r).1]
            exact ho
        · simp only [hu, if_false]
          by_cases hi : (r.owner, r.id) ∈ fs.itemFolders
          · simp only [List.mem_cons, hi, if_true]
            exact Or.inr ho
          · simp only [List.mem_cons, hi, if_false]
            rw [(dispatch_folders svc _ r).1]
            exact List.mem_cons_of_mem _ ho
      · simp only [hs, if_false]; exact ho

/-- Processing any row only ever adds item folders, never removes them. -/
theorem processRow_mono_item (svc : Service) (fs : FS) (r : Row)
    (p : String × String) (hp : p ∈ fs.itemFolders) :
    p ∈ (processRow svc fs r).fs.itemFolders := by
  unfold processRow
  match hflag : r.archiveFlagValue with
  | CellValue.none => exact hp
  | CellValue.other tag => exact hp
  | CellValue.str s =>
      by_cases hs : strLower s = archiveFlag
      · simp only [hs, if_true]
        by_cases hu : r.owner ∈ fs.userFolders
        · simp only [hu, if_true]
          by_cases hi : (r.owner, r.id) ∈ fs.itemFolders
          · simp only [hi, if_true]; exact hp
          · simp only [hi, if_false]
            rw [(dispatch_folders svc _ r).2]
            exact List.mem_cons_of_mem _ hp
        · simp only [hu, if_false]
          by_cases hi : (r.owner, r.id) ∈ fs.itemFolders
          · simp only [List.mem_cons, hi, if_true]; exact hp
          · simp only [List.mem_cons, hi, if_false]
            rw [(dispatch_folders svc _ r).2]
            exact List.mem_cons_of_mem _ hp
      · simp only [hs, if_false]; exact hp

/-- A settled row stays settled across the processing of any other row. -/
theorem settled_mono (svc : Service) (fs : FS) (r r' : Row)
    (h : settled fs r) : settled (processRow svc fs r').fs r := by
  unfold settled at h ⊢
  match hflag : r.archiveFlagValue with
  | CellValue.none => simp
  | CellValue.other tag => rw [hflag] at h; exact absurd h (by simp)
  | CellValue.str s =>
      rw [hflag] at h
      intro hs
      obtain ⟨h1, h2⟩ := h hs
      exact ⟨processRow_mono_user svc fs r' _ h1,
        processRow_mono_item svc fs r' _ h2⟩

/-- After a row is processed without an uncaught exception, it is settled in
the resulting filesystem state. -/
theorem processRow_settles (svc : Service) (fs : FS) (r : Row)
    (h : (processRow svc fs r).err = Option.none) :
    settled (processRow svc fs r).fs r := by
  unfold settled
  match hflag : r.archiveFlagValue with
  | CellValue.none => simp
  | CellValue.other tag =>
      rw [processRow_flag_other svc fs r tag hflag] at h
      exact absurd h (by simp)
  | CellValue.str s =>
      intro hs
      unfold processRow
      rw [hflag]
      simp only [hs, if_true]
      by_cases hu : r.owner ∈ fs.userFolders
      · simp only [hu, if_true]
        by_cases hi : (r.owner, r.id) ∈ fs.itemFolders
        · simp [hi, hu]
        · simp only [hi, if_false]
          rw [(dispatch_folders svc _ r).1, (dispatch_folders svc _ r).2]
          simp [hu]
      · simp only [hu, if_false]
        by_cases hi : (r.owner, r.id) ∈ fs.itemFolders
        · simp [List.mem_cons, hi]
        · simp only [List.mem_cons, hi, if_false]
          rw [(dispatch_folders svc _ r).1, (dispatch_folders svc _ r).2]
          simp

/-- Settledness of a row is preserved by a whole sweep. -/
theorem runSweep_settled_mono (svc : Service) (fs : FS) (rows : List Row)
    (r : Row) (h : settled fs r) : settled (runSweep svc fs rows).fs r := by
  induction rows generalizing fs with
  | nil => exact h
  | cons r' rs ih =>
      cases he : (processRow svc fs r').err with
      | none =>
          rw [runSweep_cons_none svc fs r' rs he]
          exact ih _ (settled_mono svc fs r r' h)
      | some e =>
          rw [runSweep_cons_some svc fs r' rs e he]
          exact settled_mono svc fs r r' h

/-- After a sweep that raised no uncaught exception, every row of the
inventory is settled in the final filesystem state. -/
theorem runSweep_settles (svc : Service) (fs : FS) (rows : List Row)
    (h : (runSweep svc fs rows).err = Option.none) :
    ∀ r ∈ rows, settled (runSweep svc fs rows).fs r := by
  induction rows generalizing fs with
  | nil => simp
  | cons r' rs ih =>
      intro r hr
      cases he : (processRow svc fs r').err with
      | some e =>
          rw [runSweep_cons_some svc fs r' rs e he] at h
          exact absurd h (by simp)
      | none =>
          rw [runSweep_cons_none svc fs r' rs he] at h ⊢
          simp only at h ⊢
          rcases List.mem_cons.mp hr with rfl | hmem
          · exact runSweep_settled_mono svc _ rs r (processRow_settles svc fs r he)
          · exact ih _ h r hmem

/-- A sweep over rows that are all already settled does nothing: no state
change, no remote call, no exception. -/
theorem runSweep_all_settled (svc : Service) (fs : FS) (rows : List Row)
    (h : ∀ r ∈ rows, settled fs r) :
    runSweep svc fs rows = ⟨fs, [], Option.none⟩ := by
  induction rows with
  | nil => rfl
  | cons r rs ih =>
      have hskip := settled_skip svc fs r (h r (List.mem_cons_self r rs))
      have he : (processRow svc fs r).err = Option.none := by rw [hskip]
      rw [runSweep_cons_none svc fs r rs he, hskip]
      rw [ih (fun r' hr' => h r' (List.mem_cons_of_mem r hr'))]
      rfl

/-! ### Classifier facts -/

/-- The five static type lists are pairwise disjoint. -/
theorem type_lists_disjoint :
    (∀ t ∈ lst_file_types, t ∉ lst_export_services ∧ t ∉ lst_other_services ∧
      t ∉ lst_data_apps ∧ t ∉ lst_other_apps) ∧
    (∀ t ∈ lst_export_services, t ∉ lst_other_services ∧ t ∉ lst_data_apps ∧
      t ∉ lst_other_apps) ∧
    (∀ t ∈ lst_other_services, t ∉ lst_data_apps ∧ t ∉ lst_other_apps) ∧
    (∀ t ∈ lst_data_apps, t ∉ lst_other_apps) := by decide

/-- Characterization: `classify` returns `FileAsset` exactly on the file-type
list. -/
theorem classify_fileAsset_iff (t : String) :
    classify t = TypeClass.FileAsset ↔ t ∈ lst_file_types := by
  unfold classify
  split_ifs with h1 h2 h3 h4 h5
  · exact iff_of_true rfl h1
  · exact iff_of_false (by simp) (fun hm => (type_lists_disjoint.1 t hm).2.2.1 h2)
  · exact iff_of_false (by simp) (fun hm => (type_lists_disjoint.1 t hm).1 h3)
  · exact iff_of_false (by simp) (fun hm => (type_lists_disjoint.1 t hm).2.1 h4)
  · exact iff_of_false (by simp) (fun hm => (type_lists_disjoint.1 t hm).2.2.2 h5)
  · exact iff_of_false (by simp) h1

/-- Characterization: `classify` returns `DataApplication` exactly on the
data-apps list. -/
theorem classify_dataApp_iff (t : String) :
    classify t = TypeClass.DataApplication ↔ t ∈ lst_data_apps := by
  unfold classify
  split_ifs with h1 h2 h3 h4 h5
  · exact iff_of_false (by simp) (fun hm => (type_lists_disjoint.1 t h1).2.2.1 hm)
  · exact iff_of_true rfl h2
  · exact iff_of_false (by simp) (fun hm => (type_lists_disjoint.2.1 t h3).2.1 hm)
  · exact iff_of_false (by simp) (fun hm => (type_lists_disjoint.2.2.1 t h4).1 hm)
  · exact iff_of_false (by simp) (fun hm => (type_lists_disjoint.2.2.2 t hm) h5)
  · exact iff_of_false (by simp) h2

/-- Characterization: `classify` returns `ExportableService` exactly on the
export-services list. -/
theorem classify_export_iff (t : String) :
    classify t = TypeClass.ExportableService ↔ t ∈ lst_export_services := by
  unfold classify
  split_ifs with h1 h2 h3 h4 h5
  · exact iff_of_false (by simp) (fun hm => (type_lists_disjoint.1 t h1).1 hm)
  · exact iff_of_false (by simp) (fun hm => (type_lists_disjoint.2.1 t hm).2.1 h2)
  · exact iff_of_true rfl h3
  · exact iff_of_false (by simp) (fun hm => (type_lists_disjoint.2.1 t hm).1 h4)
  · exact iff_of_false (by simp) (fun hm => (type_lists_disjoint.2.1 t hm).2.2 h5)
  · exact iff_of_false (by simp) h3

/-- Characterization: `classify` returns `NonExportableService` exactly on the
non-export-services list. -/
theorem classify_nonExport_iff (t : String) :
    classify t = TypeClass.NonExportableService ↔ t ∈ lst_other_services := by
  unfold classify
  split_ifs with h1 h2 h3 h4 h5
  · exact iff_of_false (by simp) (fun hm => (type_lists_disjoint.1 t h1).2.1 hm)
  · exact iff_of_false (by simp) (fun hm => (type_lists_disjoint.2.2.1 t hm).1 h2)
  · exact iff_of_false (by simp) (fun hm => (type_lists_disjoint.2.1 t h3).1 hm)
  · exact iff_of_true rfl h4
  · exact iff_of_false (by simp) (fun hm => (type_lists_disjoint.2.2.1 t hm).2 h5)
  · exact iff_of_false (by simp) h4

/-- Characterization: `classify` returns `OtherApplication` exactly on the
other-apps list. -/
theorem classify_otherApp_iff (t : String) :
    classify t = TypeClass.OtherApplication ↔ t ∈ lst_other_apps := by
  unfold classify
  split_ifs with h1 h2 h3 h4 h5
  · exact iff_of_false (by simp) (fun hm => (type_lists_disjoint.1 t h1).2.2.2 hm)
  · exact iff_of_false (by simp) (fun hm => (type_lists_disjoint.2.2.2 t h2) hm)
  · exact iff_of_false (by simp) (fun hm => (type_lists_disjoint.2.1 t h3).2.2 hm)
  · exact iff_of_false (by simp) (fun hm => (type_lists_disjoint.2.2.1 t h4).2 hm)
  · exact iff_of_true rfl h5
  · exact iff_of_false (by simp) h5

/-- Characterization: `classify` falls through to `Unclassified` exactly when
the string is on none of the five lists. -/
theorem classify_unclassified_iff (t : String) :
    classify t = TypeClass.Unclassified ↔
      t ∉ lst_file_types ∧ t ∉ lst_export_services ∧ t ∉ lst_other_services ∧
        t ∉ lst_data_apps ∧ t ∉ lst_other_apps := by
  unfold classify
  split_ifs with h1 h2 h3 h4 h5
  · exact iff_of_false (by simp) (fun hc => hc.1 h1)
  · exact iff_of_false (by simp) (fun hc => hc.2.2.2.1 h2)
  · exact iff_of_false (by simp) (fun hc => hc.2.1 h3)
  · exact iff_of_false (by simp) (fun hc => hc.2.2.1 h4)
  · exact iff_of_false (by simp) (fun hc => hc.2.2.2.2 h5)
  · exact iff_of_true rfl ⟨h1, h3, h4, h2, h5⟩

/-- The `if/elif` dispatch chain invokes exactly the strategy of the row's
classified type. -/
theorem dispatch_strategyFor (svc : Service) (fs : FS) (r : Row) :
    dispatchStrategy svc fs r = strategyFor (classify r.ty) svc fs r := by
  unfold dispatchStrategy classify strategyFor
  split_ifs <;> rfl

/-! ### Concrete fixtures used by witnesses and counterexamples -/

/-- A remote service on which every operation succeeds; every id resolves to
an item titled "T". -/
def svcDemo : Service where
  getItem := fun _ => Option.some ⟨"T", "http://example/item"⟩
  downloadOk := fun _ => true
  getDataOk := fun _ => true
  dataDoc := fun _ => Json.obj []
  exportOk := fun _ => true
  exportDownloadOk := fun _ => true
  exportErrMsg := fun _ => "export failed"
  exportDownloadErrMsg := fun _ => "zip download failed"
  deleteOk := fun _ => true
  relatedData := fun _ => []
  relatedServices := fun _ => []

/-- Like `svcDemo`, but `download` raises for item "i1". -/
def svcDownloadFail : Service :=
  { svcDemo with downloadOk := fun id => !(id == "i1") }

/-- Like `svcDemo`, but the `export` call raises for every item. -/
def svcExportFail : Service :=
  { svcDemo with exportOk := fun _ => false }

/-- Like `svcDemo`, but no item exists. -/
def svcEmpty : Service :=
  { svcDemo with getItem := fun _ => Option.none }

/-- The empty archive root. -/
def fs0 : FS := ⟨[], [], []⟩

/-- An inventory row holding a file-type item flagged for archiving. -/
def rowCsv : Row := ⟨"i1", "alice", "CSV", CellValue.str "yes", CellValue.str "no"⟩

/-- A second file-type row, behind `rowCsv` in the sheet. -/
def rowCsv2 : Row := ⟨"i2", "alice", "CSV", CellValue.str "yes", CellValue.str "no"⟩

/-- A data-application row (a Web Map) flagged for archiving. -/
def rowWebMap : Row :=
  ⟨"wm1", "alice", "Web Map", CellValue.str "yes", CellValue.str "no"⟩

/-- An exportable-service row (a Feature Service) flagged for archiving and
deleting. -/
def rowFeature : Row :=
  ⟨"fs1", "bob", "Feature Service", CellValue.str "yes", CellValue.str "yes"⟩

/-- A row not flagged for archiving. -/
def rowNo : Row := ⟨"i9", "carol", "CSV", CellValue.str "no", CellValue.str "yes"⟩

/-- A row whose archive cell holds a number instead of a string. -/
def rowNum : Row := ⟨"i8", "carol", "CSV", CellValue.other 1, CellValue.str "no"⟩

/-! ### The claims -/

/-- C4: for every row whose archive flag is absent, or whose archive flag does
not case-insensitively equal the configured affirmative token `'yes'`, the
sweep creates no folder under the archive root for that row and performs no
remote-service call for that row: processing leaves the filesystem state
untouched and issues no call. -/
theorem c4_flag_gate (svc : Service) (fs : FS) (r : Row)
    (h : r.archiveFlagValue = CellValue.none ∨
      ∃ s, r.archiveFlagValue = CellValue.str s ∧ strLower s ≠ archiveFlag) :
    processRow svc fs r = ⟨fs, [], Option.none⟩ := by
  rcases h with h | ⟨s, hs, hne⟩
  · exact processRow_flag_none svc fs r h
  · exact processRow_flag_noMatch svc fs r s hs hne

/-- Witness for C4 at the concrete row `rowNo` (flag cell `'no'`). -/
theorem c4_flag_gate_witness :
    processRow svcDemo fs0 rowNo = ⟨fs0, [], Option.none⟩ :=
  c4_flag_gate svcDemo fs0 rowNo
    (Or.inr ⟨"no", rfl, by decide⟩)

/-- C10: per-row processing is total only when every non-absent archive-flag
cell is a string.  The engine calls `.lower()` on the cell value before
comparing, so a non-string, non-absent cell raises `AttributeError` at the
flag check itself (before any folder creation or remote call) rather than
skipping the row; with a string or absent cell that error cannot occur. -/
theorem c10_flag_totality (svc : Service) (fs : FS) (r : Row) :
    (∀ tag, r.archiveFlagValue = CellValue.other tag →
      processRow svc fs r = ⟨fs, [], Option.some Err.attributeError⟩) ∧
    (r.archiveFlagValue = CellValue.none ∨ (∃ s, r.archiveFlagValue = CellValue.str s) →
      (processRow svc fs r).err ≠ Option.some Err.attributeError) := by
  constructor
  · exact fun tag h => processRow_flag_other svc fs r tag h
  · rintro (h | ⟨s, hs⟩)
    · rw [processRow_flag_none svc fs r h]; simp
    · unfold processRow
      rw [hs]
      by_cases hyes : strLower s = archiveFlag
      · simp only [hyes, if_true]
        by_cases hi : (r.owner, r.id) ∈
            (if r.owner ∈ fs.userFolders then fs
             else { fs with userFolders := r.owner :: fs.userFolders }).itemFolders
        · simp [hi]
        · simp only [hi, if_false]
          exact dispatch_err_not_attr svc _ r
      · simp [hyes]

/-- Witness for C10 at the concrete rows `rowNum` (numeric flag cell) and
`rowCsv` (string flag cell). -/
theorem c10_flag_totality_witness :
    processRow svcDemo fs0 rowNum = ⟨fs0, [], Option.some Err.attributeError⟩ ∧
    (processRow svcDemo fs0 rowCsv).err ≠ Option.some Err.attributeError :=
  ⟨(c10_flag_totality svcDemo fs0 rowNum).1 1 rfl,
   (c10_flag_totality svcDemo fs0 rowCsv).2 (Or.inr ⟨"yes", rfl⟩)⟩

/-- C9: for a row whose archive flag matches the affirmative token and whose
destination folder did not previously exist, if the remote service returns no
item for the row's id, the row's processing still leaves the created (empty)
item folder on disk, writes no file into it, issues only the single failed
fetch, and every later visit to the row is skipped as already processed. -/
theorem c9_missing_item (svc : Service) (fs : FS) (r : Row) (s : String)
    (hflag : r.archiveFlagValue = CellValue.str s)
    (hyes : strLower s = archiveFlag)
    (hfresh : (r.owner, r.id) ∉ fs.itemFolders)
    (hmiss : svc.getItem r.id = Option.none) :
    (processRow svc fs r).err = Option.none ∧
    (processRow svc fs r).calls = [RemoteCall.get r.id] ∧
    (processRow svc fs r).fs.files = fs.files ∧
    (r.owner, r.id) ∈ (processRow svc fs r).fs.itemFolders ∧
    processRow svc (processRow svc fs r).fs r = ⟨(processRow svc fs r).fs, [], Option.none⟩ := by
  have hmain : processRow svc fs r =
      ⟨{ userFolders :=
           if r.owner ∈ fs.userFolders then fs.userFolders
           else r.owner :: fs.userFolders,
         itemFolders := (r.owner, r.id) :: fs.itemFolders,
         files := fs.files },
       [RemoteCall.get r.id], Option.none⟩ := by
    unfold processRow
    rw [hflag]
    simp only [hyes, if_true]
    by_cases hu : r.owner ∈ fs.userFolders
    · simp only [hu, if_true, hfresh, if_false]
      rw [dispatch_item_none svc _ r hmiss]
    · simp only [hu, if_false, hfresh, if_true]
      rw [dispatch_item_none svc _ r hmiss]
  refine ⟨by rw [hmain], by rw [hmain], by rw [hmain], by rw [hmain]; exact List.mem_cons_self _ _, ?_⟩
  rw [hmain]
  apply processRow_skip svc _ r s hflag
  · by_cases hu : r.owner ∈ fs.userFolders
    · simp only [if_pos hu]; exact hu
    · simp only [if_neg hu]; exact List.mem_cons_self _ _
  · exact List.mem_cons_self _ _

/-- Witness for C9 at the concrete row `rowCsv` against the item-less service
`svcEmpty`. -/
theorem c9_missing_item_witness :
    (processRow svcEmpty fs0 rowCsv).err = Option.none ∧
    (processRow svcEmpty fs0 rowCsv).calls = [RemoteCall.get "i1"] ∧
    (processRow svcEmpty fs0 rowCsv).fs.files = [] ∧
    ("alice", "i1") ∈ (processRow svcEmpty fs0 rowCsv).fs.itemFolders ∧
    processRow svcEmpty (processRow svcEmpty fs0 rowCsv).fs rowCsv =
      ⟨(processRow svcEmpty fs0 rowCsv).fs, [], Option.none⟩ :=
  c9_missing_item svcEmpty fs0 rowCsv "yes" rfl (by decide) (by decide) rfl

/-- C2: running the sweep a second time over an unchanged inventory and
archive root performs no remote-service call at all on the second run — every
row processed by a completed first run has left its destination folder (or
needed none), so the second run skips every row before any remote
interaction, changing nothing.  (A first run aborted by an uncaught
exception has not visited the later rows, hence the completion hypothesis.) -/
theorem c2_idempotent (svc : Service) (fs : FS) (rows : List Row)
    (h : (runSweep svc fs rows).err = Option.none) :
    runSweep svc (runSweep svc fs rows).fs rows =
      ⟨(runSweep svc fs rows).fs, [], Option.none⟩ :=
  runSweep_all_settled svc _ rows (runSweep_settles svc fs rows h)

/-- Witness for C2: a two-row inventory archived from the empty root. -/
theorem c2_idempotent_witness :
    (runSweep svcDemo fs0 [rowCsv, rowWebMap]).err = Option.none ∧
    runSweep svcDemo (runSweep svcDemo fs0 [rowCsv, rowWebMap]).fs
        [rowCsv, rowWebMap] =
      ⟨(runSweep svcDemo fs0 [rowCsv, rowWebMap]).fs, [], Option.none⟩ :=
  ⟨rfl, c2_idempotent svcDemo fs0 [rowCsv, rowWebMap] rfl⟩

/-- C5 (counterexample): the claim asserts an early exit through a NON-ZERO
exit path, but both precondition failures call `sys.exit(0)`: with a missing
inventory file the program does exit early, yet its exit status is 0, so no
non-zero exit code exists. -/
theorem c5_exit_code_zero_cex :
    (runProgram false false "u1" "u1" svcDemo fs0 []).earlyExitCode =
      Option.some 0 ∧
    ¬ ∃ c, c ≠ 0 ∧
      (runProgram false false "u1" "u1" svcDemo fs0 []).earlyExitCode =
        Option.some c := by
  refine ⟨rfl, ?_⟩
  rintro ⟨c, hc, h⟩
  rw [show (runProgram false false "u1" "u1" svcDemo fs0 []).earlyExitCode =
      Option.some 0 from rfl] at h
  exact hc (Option.some.injEq _ _ ▸ h).symm

/-- C5 (amended): the process exits early — through `sys.exit(0)`, i.e. with
exit status zero, not a non-zero status — before processing any inventory row,
whenever the inventory file does not exist or the account id obtained from the
remote service differs from the configured expected user id: no remote call is
made and the archive root is untouched. -/
theorem c5_amended_abort (inventoryExists verifyError : Bool)
    (obtainedId expectedId : String) (svc : Service) (fs : FS)
    (rows : List Row)
    (h : inventoryExists = false ∨ obtainedId ≠ expectedId) :
    (runProgram inventoryExists verifyError obtainedId expectedId svc fs
        rows).earlyExitCode = Option.some 0 ∧
    (runProgram inventoryExists verifyError obtainedId expectedId svc fs
        rows).calls = [] ∧
    (runProgram inventoryExists verifyError obtainedId expectedId svc fs
        rows).fs = fs := by
  unfold runProgram
  rcases h with h | h
  · subst h; exact ⟨rfl, rfl, rfl⟩
  · split_ifs <;> simp_all

/-- Witness for C5 (amended) at a missing inventory file. -/
theorem c5_amended_abort_witness :
    (runProgram false false "u1" "u1" svcDemo fs0 [rowCsv]).earlyExitCode =
      Option.some 0 ∧
    (runProgram false false "u1" "u1" svcDemo fs0 [rowCsv]).calls = [] ∧
    (runProgram false false "u1" "u1" svcDemo fs0 [rowCsv]).fs = fs0 :=
  c5_amended_abort false false "u1" "u1" svcDemo fs0 [rowCsv] (Or.inl rfl)

/-- Decomposition of a fresh (not-yet-archived) affirmative row: the gate
creates the owner folder if needed and the item folder, then dispatches. -/
theorem processRow_fresh_dispatch (svc : Service) (fs : FS) (r : Row)
    (s : String) (hflag : r.archiveFlagValue = CellValue.str s)
    (hyes : strLower s = archiveFlag)
    (hfresh : (r.owner, r.id) ∉ fs.itemFolders) :
    processRow svc fs r = dispatchStrategy svc
      { userFolders :=
          if r.owner ∈ fs.userFolders then fs.userFolders
          else r.owner :: fs.userFolders,
        itemFolders := (r.owner, r.id) :: fs.itemFolders,
        files := fs.files } r := by
  unfold processRow
  rw [hflag]
  simp only [hyes, if_true]
  by_cases hu : r.owner ∈ fs.userFolders
  · simp only [hu, if_true, hfresh, if_false]
  · simp only [hu, if_false, hfresh, if_true]

/-- C3: for a fresh affirmative row whose declared type is in the
export-capable-service list, if the export (or the download of the exported
package) fails, then exactly one file named `{declaredType}_error.json` is
written under the destination folder, whose content is a JSON document with
exactly the fields `itemname`, `itemid` and `download_error` (the latter the
stringified exception), the remote item is not deleted even when the delete
flag is affirmative, and the sweep continues with the subsequent rows. -/
theorem c3_export_failure (svc : Service) (fs : FS) (r : Row) (s : String)
    (item : Item) (rs : List Row)
    (hflag : r.archiveFlagValue = CellValue.str s)
    (hyes : strLower s = archiveFlag)
    (hfresh : (r.owner, r.id) ∉ fs.itemFolders)
    (hty : r.ty ∈ lst_export_services)
    (hitem : svc.getItem r.id = Option.some item)
    (hfail : svc.exportOk r.id = false ∨
      (svc.exportOk r.id = true ∧ svc.exportDownloadOk r.id = false)) :
    (processRow svc fs r).err = Option.none ∧
    (processRow svc fs r).fs.files = fs.files ++
      [(r.owner, r.id, r.ty ++ "_error.json",
        FileContent.jsonVal (errorDoc item.title r.id
          (if svc.exportOk r.id then svc.exportDownloadErrMsg r.id
           else svc.exportErrMsg r.id)))] ∧
    RemoteCall.delete r.id ∉ (processRow svc fs r).calls ∧
    runSweep svc fs (r :: rs) =
      ⟨(runSweep svc (processRow svc fs r).fs rs).fs,
       (processRow svc fs r).calls ++
         (runSweep svc (processRow svc fs r).fs rs).calls,
       (runSweep svc (processRow svc fs r).fs rs).err⟩ := by
  have hnotfile : r.ty ∉ lst_file_types :=
    fun hf => (type_lists_disjoint.1 _ hf).1 hty
  have hnotdata : r.ty ∉ lst_data_apps := (type_lists_disjoint.2.1 _ hty).2.1
  rcases hfail with hf | ⟨hf, hfd⟩
  · have hmain : processRow svc fs r =
        ⟨{ userFolders :=
             if r.owner ∈ fs.userFolders then fs.userFolders
             else r.owner :: fs.userFolders,
           itemFolders := (r.owner, r.id) :: fs.itemFolders,
           files := fs.files ++
             [(r.owner, r.id, r.ty ++ "_error.json",
               FileContent.jsonVal (errorDoc item.title r.id
                 (svc.exportErrMsg r.id)))] },
         [RemoteCall.get r.id, RemoteCall.export r.id], Option.none⟩ := by
      rw [processRow_fresh_dispatch svc fs r s hflag hyes hfresh]
      unfold dispatchStrategy
      simp only [hnotfile, if_false, hnotdata, hty, if_true]
      unfold exportServiceBranch
      rw [hitem]
      simp [hf, FS.addFile]
    refine ⟨by rw [hmain], by rw [hmain]; simp [hf], by rw [hmain]; simp, ?_⟩
    exact runSweep_cons_none svc fs r rs (by rw [hmain])
  · have hmain : processRow svc fs r =
        ⟨{ userFolders :=
             if r.owner ∈ fs.userFolders then fs.userFolders
             else r.owner :: fs.userFolders,
           itemFolders := (r.owner, r.id) :: fs.itemFolders,
           files := fs.files ++
             [(r.owner, r.id, r.ty ++ "_error.json",
               FileContent.jsonVal (errorDoc item.title r.id
                 (svc.exportDownloadErrMsg r.id)))] },
         [RemoteCall.get r.id, RemoteCall.export r.id,
          RemoteCall.downloadExported r.id], Option.none⟩ := by
      rw [processRow_fresh_dispatch svc fs r s hflag hyes hfresh]
      unfold dispatchStrategy
      simp only [hnotfile, if_false, hnotdata, hty, if_true]
      unfold exportServiceBranch
      rw [hitem]
      simp [hf, hfd, FS.addFile]
    refine ⟨by rw [hmain], by rw [hmain]; simp [hf], by rw [hmain]; simp, ?_⟩
    exact runSweep_cons_none svc fs r rs (by rw [hmain])

/-- Witness for C3: the Feature Service row against a service whose export
call raises, with the delete flag affirmative. -/
theorem c3_export_failure_witness :
    (processRow svcExportFail fs0 rowFeature).err = Option.none ∧
    (processRow svcExportFail fs0 rowFeature).fs.files =
      [] ++ [("bob", "fs1", "Feature Service" ++ "_error.json",
        FileContent.jsonVal (errorDoc "T" "fs1"
          (if svcExportFail.exportOk "fs1" then
            svcExportFail.exportDownloadErrMsg "fs1"
           else svcExportFail.exportErrMsg "fs1")))] ∧
    RemoteCall.delete "fs1" ∉ (processRow svcExportFail fs0 rowFeature).calls ∧
    runSweep svcExportFail fs0 [rowFeature] =
      ⟨(runSweep svcExportFail (processRow svcExportFail fs0 rowFeature).fs []).fs,
       (processRow svcExportFail fs0 rowFeature).calls ++
         (runSweep svcExportFail (processRow svcExportFail fs0 rowFeature).fs []).calls,
       (runSweep svcExportFail (processRow svcExportFail fs0 rowFeature).fs []).err⟩ :=
  c3_export_failure svcExportFail fs0 rowFeature "yes" ⟨"T", "http://example/item"⟩
    [] rfl (by decide) (by decide) (by decide) rfl (Or.inl rfl)

/-- The conditional-delete step issues the delete call exactly when the
delete cell is the exact string `'yes'`. -/
theorem mem_deleteCalls (r : Row) :
    RemoteCall.delete r.id ∈ deleteCalls r ↔
      r.deleteFlagValue = CellValue.str deleteFlag := by
  unfold deleteCalls
  by_cases hd : r.deleteFlagValue = CellValue.str deleteFlag <;> simp [hd]

/-- The conditional-delete step never issues more than one delete call. -/
theorem count_deleteCalls (r : Row) :
    (deleteCalls r).count (RemoteCall.delete r.id) ≤ 1 := by
  unfold deleteCalls
  by_cases hd : r.deleteFlagValue = CellValue.str deleteFlag <;> simp [hd]

/-- No delete call hides among the Form branch's related-item downloads. -/
theorem count_delete_map_downloadRelated (l : List String) (i : String) :
    (l.map RemoteCall.downloadRelated).count (RemoteCall.delete i) = 0 :=
  List.count_eq_zero.mpr (by simp)

/-- C6: for a fresh affirmative row of class FileAsset, ExportableService,
DataApplication or OtherApplication whose archival step succeeds, the delete
call on the remote item is issued if and only if the row's delete flag
exactly (case-sensitively) equals the configured token `'yes'`; the delete
call is issued at most once (never retried); and no uncaught exception
escapes the row regardless of whether the delete call itself succeeds
(`deleteOk` is unconstrained), so a delete failure never aborts the sweep. -/
theorem c6_conditional_delete (svc : Service) (fs : FS) (r : Row) (s : String)
    (item : Item)
    (hflag : r.archiveFlagValue = CellValue.str s)
    (hyes : strLower s = archiveFlag)
    (hfresh : (r.owner, r.id) ∉ fs.itemFolders)
    (hitem : svc.getItem r.id = Option.some item)
    (hdl : svc.downloadOk r.id = true) (hgd : svc.getDataOk r.id = true)
    (hex : svc.exportOk r.id = true) (hexd : svc.exportDownloadOk r.id = true)
    (hcls : classify r.ty = TypeClass.FileAsset ∨
      classify r.ty = TypeClass.ExportableService ∨
      classify r.ty = TypeClass.DataApplication ∨
      classify r.ty = TypeClass.OtherApplication) :
    (processRow svc fs r).err = Option.none ∧
    (RemoteCall.delete r.id ∈ (processRow svc fs r).calls ↔
      r.deleteFlagValue = CellValue.str deleteFlag) ∧
    (processRow svc fs r).calls.count (RemoteCall.delete r.id) ≤ 1 := by
  rw [processRow_fresh_dispatch svc fs r s hflag hyes hfresh,
    dispatch_strategyFor]
  rcases hcls with hc | hc | hc | hc <;> rw [hc] <;> simp only [strategyFor]
  · unfold fileAssetBranch
    rw [hitem]
    simp only [hdl, if_true]
    refine ⟨by trivial, ?_, ?_⟩
    · simp [mem_deleteCalls]
    · have h1 : ([RemoteCall.get r.id, RemoteCall.download r.id] :
          List RemoteCall).count (RemoteCall.delete r.id) = 0 :=
        List.count_eq_zero.mpr (by simp)
      simp only [List.count_append, h1, Nat.zero_add]
      exact count_deleteCalls r
  · unfold exportServiceBranch
    rw [hitem]
    simp only [hex, hexd, if_true]
    refine ⟨by trivial, ?_, ?_⟩
    · simp [mem_deleteCalls]
    · have h1 : ([RemoteCall.get r.id, RemoteCall.export r.id,
          RemoteCall.downloadExported r.id] :
          List RemoteCall).count (RemoteCall.delete r.id) = 0 :=
        List.count_eq_zero.mpr (by simp)
      simp only [List.count_append, h1, Nat.zero_add]
      exact count_deleteCalls r
  · unfold dataAppBranch
    rw [hitem]
    simp only [hgd, if_true]
    refine ⟨by trivial, ?_, ?_⟩
    · simp [mem_deleteCalls]
    · have h1 : ([RemoteCall.get r.id, RemoteCall.getData r.id] :
          List RemoteCall).count (RemoteCall.delete r.id) = 0 :=
        List.count_eq_zero.mpr (by simp)
      simp only [List.count_append, h1, Nat.zero_add]
      exact count_deleteCalls r
  · unfold otherAppsBranch
    rw [hitem]
    simp only [hgd, if_true]
    by_cases hform : r.ty = "Form"
    · simp only [hform, if_true]
      refine ⟨by trivial, ?_, ?_⟩
      · simp [mem_deleteCalls]
      · have h1 : ([RemoteCall.get r.id, RemoteCall.getData r.id,
            RemoteCall.relatedItems r.id "Survey2Data"] :
            List RemoteCall).count (RemoteCall.delete r.id) = 0 :=
          List.count_eq_zero.mpr (by simp)
        have h2 : ([RemoteCall.relatedItems r.id "Survey2Service"] :
            List RemoteCall).count (RemoteCall.delete r.id) = 0 :=
          List.count_eq_zero.mpr (by simp)
        simp only [List.count_append, h1, h2,
          count_delete_map_downloadRelated, Nat.zero_add]
        exact count_deleteCalls r
    · simp only [hform, if_false]
      refine ⟨by trivial, ?_, ?_⟩
      · simp [mem_deleteCalls]
      · have h1 : ([RemoteCall.get r.id, RemoteCall.getData r.id,
            RemoteCall.resourcesExport r.id] :
            List RemoteCall).count (RemoteCall.delete r.id) = 0 :=
          List.count_eq_zero.mpr (by simp)
        simp only [List.count_append, h1, Nat.zero_add]
        exact count_deleteCalls r

/-- Witness for C6: the Feature Service row (delete flag `'yes'`) against the
all-succeeding service. -/
theorem c6_conditional_delete_witness :
    (processRow svcDemo fs0 rowFeature).err = Option.none ∧
    (RemoteCall.delete "fs1" ∈ (processRow svcDemo fs0 rowFeature).calls ↔
      rowFeature.deleteFlagValue = CellValue.str deleteFlag) ∧
    (processRow svcDemo fs0 rowFeature).calls.count
      (RemoteCall.delete "fs1") ≤ 1 :=
  c6_conditional_delete svcDemo fs0 rowFeature "yes"
    ⟨"T", "http://example/item"⟩ rfl (by decide) (by decide) rfl rfl rfl rfl
    rfl (Or.inr (Or.inl (by decide)))

/-- C7: classification of a declared type string is a pure total Lean
function over case-sensitive exact list membership; the five static lists are
pairwise disjoint; every string on one of the lists is assigned that list's
class and every other string is assigned `Unclassified`; and the dispatch
chain invokes exactly the strategy of the class `classify` returns. -/
theorem c7_classifier :
    ((∀ t ∈ lst_file_types, t ∉ lst_export_services ∧ t ∉ lst_other_services ∧
        t ∉ lst_data_apps ∧ t ∉ lst_other_apps) ∧
     (∀ t ∈ lst_export_services, t ∉ lst_other_services ∧ t ∉ lst_data_apps ∧
        t ∉ lst_other_apps) ∧
     (∀ t ∈ lst_other_services, t ∉ lst_data_apps ∧ t ∉ lst_other_apps) ∧
     (∀ t ∈ lst_data_apps, t ∉ lst_other_apps)) ∧
    (∀ t, classify t = TypeClass.FileAsset ↔ t ∈ lst_file_types) ∧
    (∀ t, classify t = TypeClass.ExportableService ↔ t ∈ lst_export_services) ∧
    (∀ t, classify t = TypeClass.NonExportableService ↔ t ∈ lst_other_services) ∧
    (∀ t, classify t = TypeClass.DataApplication ↔ t ∈ lst_data_apps) ∧
    (∀ t, classify t = TypeClass.OtherApplication ↔ t ∈ lst_other_apps) ∧
    (∀ t, classify t = TypeClass.Unclassified ↔
      t ∉ lst_file_types ∧ t ∉ lst_export_services ∧ t ∉ lst_other_services ∧
        t ∉ lst_data_apps ∧ t ∉ lst_other_apps) ∧
    (∀ svc fs r, dispatchStrategy svc fs r = strategyFor (classify r.ty) svc fs r) :=
  ⟨type_lists_disjoint, classify_fileAsset_iff, classify_export_iff,
   classify_nonExport_iff, classify_dataApp_iff, classify_otherApp_iff,
   classify_unclassified_iff, dispatch_strategyFor⟩

/-- Witness for C7: one representative of each class, and the dispatch
equation at a concrete row. -/
theorem c7_classifier_witness :
    classify "CSV" = TypeClass.FileAsset ∧
    classify "Feature Service" = TypeClass.ExportableService ∧
    classify "Image Service" = TypeClass.NonExportableService ∧
    classify "Web Map" = TypeClass.DataApplication ∧
    classify "Form" = TypeClass.OtherApplication ∧
    classify "Hub Page" = TypeClass.Unclassified ∧
    dispatchStrategy svcDemo fs0 rowCsv =
      strategyFor (classify rowCsv.ty) svcDemo fs0 rowCsv :=
  ⟨(c7_classifier.2.1 "CSV").mpr (by decide),
   (c7_classifier.2.2.1 "Feature Service").mpr (by decide),
   (c7_classifier.2.2.2.1 "Image Service").mpr (by decide),
   (c7_classifier.2.2.2.2.1 "Web Map").mpr (by decide),
   (c7_classifier.2.2.2.2.2.1 "Form").mpr (by decide),
   (c7_classifier.2.2.2.2.2.2.1 "Hub Page").mpr (by decide),
   c7_classifier.2.2.2.2.2.2.2 svcDemo fs0 rowCsv⟩

/-- C8 (counterexample): the DataApplication branch does `json.dump(
json.dumps(text), f)`, so the file written under `{declaredType}.json` holds
the JSON string-literal encoding of the serialization, not the serialization
of the data document itself.  For a Web Map row whose data document is the
empty object, the file's content is the JSON string `"\x7b\x7d"` (text
`"\x7b\x7d"` in quotes), not the object (text `\x7b\x7d`). -/
theorem c8_serialization_cex :
    (processRow svcDemo fs0 rowWebMap).fs.files =
      [("alice", "wm1", "Web Map.json",
        FileContent.jsonVal (Json.str (Json.dumps (svcDemo.dataDoc "wm1"))))] ∧
    svcDemo.dataDoc "wm1" = Json.obj [] ∧
    Json.dumps (Json.obj []) = "\x7b\x7d" ∧
    Json.dumps (Json.str (Json.dumps (Json.obj []))) = "\"\x7b\x7d\"" ∧
    FileContent.jsonVal (Json.str (Json.dumps (svcDemo.dataDoc "wm1"))) ≠
      FileContent.jsonVal (svcDemo.dataDoc "wm1") := by
  refine ⟨rfl, rfl, ?_, ?_, by simp [svcDemo]⟩
  · simp only [Json.dumps, Json.dumpsFields]
    decide
  · simp only [Json.dumps, Json.dumpsFields]
    decide

/-- C8 (amended): for a fresh affirmative row of class DataApplication whose
item is found and whose `get_data` succeeds, the strategy fetches the data
document and writes exactly one file named `{declaredType}.json` under the
destination folder, whose content is the JSON string literal containing the
document's serialization (the document serialized twice), and no exception
escapes. -/
theorem c8_dataapp_writes_json (svc : Service) (fs : FS) (r : Row) (s : String)
    (item : Item)
    (hflag : r.archiveFlagValue = CellValue.str s)
    (hyes : strLower s = archiveFlag)
    (hfresh : (r.owner, r.id) ∉ fs.itemFolders)
    (hty : r.ty ∈ lst_data_apps)
    (hitem : svc.getItem r.id = Option.some item)
    (hgd : svc.getDataOk r.id = true) :
    (processRow svc fs r).err = Option.none ∧
    (processRow svc fs r).fs.files = fs.files ++
      [(r.owner, r.id, r.ty ++ ".json",
        FileContent.jsonVal (Json.str (Json.dumps (svc.dataDoc r.id))))] := by
  have hnotfile : r.ty ∉ lst_file_types :=
    fun hf => (type_lists_disjoint.1 _ hf).2.2.1 hty
  have hmain : processRow svc fs r =
      ⟨{ userFolders :=
           if r.owner ∈ fs.userFolders then fs.userFolders
           else r.owner :: fs.userFolders,
         itemFolders := (r.owner, r.id) :: fs.itemFolders,
         files := fs.files ++
           [(r.owner, r.id, r.ty ++ ".json",
             FileContent.jsonVal (Json.str (Json.dumps (svc.dataDoc r.id))))] },
       [RemoteCall.get r.id, RemoteCall.getData r.id] ++ deleteCalls r,
       Option.none⟩ := by
    rw [processRow_fresh_dispatch svc fs r s hflag hyes hfresh]
    unfold dispatchStrategy
    simp only [hnotfile, if_false, hty, if_true]
    unfold dataAppBranch
    rw [hitem]
    simp [hgd, FS.addFile]
  exact ⟨by rw [hmain], by rw [hmain]⟩

/-- Witness for C8 (amended) at the Web Map row. -/
theorem c8_dataapp_writes_json_witness :
    (processRow svcDemo fs0 rowWebMap).err = Option.none ∧
    (processRow svcDemo fs0 rowWebMap).fs.files = [] ++
      [("alice", "wm1", "Web Map" ++ ".json",
        FileContent.jsonVal (Json.str (Json.dumps (svcDemo.dataDoc "wm1"))))] :=
  c8_dataapp_writes_json svcDemo fs0 rowWebMap "yes" ⟨"T", "http://example/item"⟩
    rfl (by decide) (by decide) (by decide) rfl rfl

/-- If the unguarded `download` and `get_data` calls succeed for a row's id
and its archive cell is not a non-string value, processing the row raises no
uncaught exception (delete and export failures are caught where they occur). -/
theorem processRow_err_none (svc : Service) (fs : FS) (r : Row)
    (hd : svc.downloadOk r.id = true) (hg : svc.getDataOk r.id = true)
    (hfl : ∀ tag, r.archiveFlagValue ≠ CellValue.other tag) :
    (processRow svc fs r).err = Option.none := by
  cases hflag : r.archiveFlagValue with
  | none => rw [processRow_flag_none svc fs r hflag]
  | other tag => exact absurd hflag (hfl tag)
  | str s =>
      unfold processRow
      rw [hflag]
      by_cases hyes : strLower s = archiveFlag
      · simp only [hyes, if_true]
        by_cases hi : (r.owner, r.id) ∈
            (if r.owner ∈ fs.userFolders then fs
             else { fs with userFolders := r.owner :: fs.userFolders }).itemFolders
        · simp [hi]
        · simp only [hi, if_false]
          exact dispatch_err_none svc _ r hd hg
      · simp [hyes]

/-- Sweep-level containment: when no row can hit an unguarded `download` or
`get_data` failure or a non-string flag cell, the sweep never aborts,
whatever the delete, export and export-download calls do. -/
theorem runSweep_err_none (svc : Service) (fs : FS) (rows : List Row)
    (hd : ∀ id, svc.downloadOk id = true)
    (hg : ∀ id, svc.getDataOk id = true)
    (hfl : ∀ r ∈ rows, ∀ tag, r.archiveFlagValue ≠ CellValue.other tag) :
    (runSweep svc fs rows).err = Option.none := by
  induction rows generalizing fs with
  | nil => rfl
  | cons r rs ih =>
      have he := processRow_err_none svc fs r (hd r.id) (hg r.id)
        (fun tag => hfl r (List.mem_cons_self r rs) tag)
      rw [runSweep_cons_none svc fs r rs he]
      exact ih _ (fun r' hr' => hfl r' (List.mem_cons_of_mem _ hr'))

/-- C1 (counterexample): a FileAsset fetch failure does NOT abort only that
row's delete step — it is uncaught and terminates the whole loop.  With
`download` raising for item "i1", the sweep over the two-row inventory
`[rowCsv, rowCsv2]` aborts on row 1: row 2 is never fetched, its folder is
never created, yet row 2 alone would have performed remote work. -/
theorem c1_fileasset_abort_cex :
    (runSweep svcDownloadFail fs0 [rowCsv, rowCsv2]).err =
      Option.some (Err.downloadError "i1") ∧
    RemoteCall.get "i2" ∉ (runSweep svcDownloadFail fs0 [rowCsv, rowCsv2]).calls ∧
    ("alice", "i2") ∉ (runSweep svcDownloadFail fs0 [rowCsv, rowCsv2]).fs.itemFolders ∧
    (processRow svcDownloadFail
      (runSweep svcDownloadFail fs0 [rowCsv, rowCsv2]).fs rowCsv2).calls ≠ [] := by
  refine ⟨rfl, by decide, by decide, by decide⟩

/-- C1 (amended): failures in a row's delete step, and export or
export-download failures in the ExportableService strategy, are caught and
never stop the processing of subsequent rows; but a FileAsset fetch
(`download`) failure is uncaught and aborts the entire sweep at that row, so
no subsequent row is processed. -/
theorem c1_failure_containment (svc svc2 : Service) (fs fs2 : FS)
    (rows : List Row) (r : Row) (rs : List Row) (s : String) (item : Item)
    (hd : ∀ id, svc.downloadOk id = true)
    (hg : ∀ id, svc.getDataOk id = true)
    (hfl : ∀ r' ∈ rows, ∀ tag, r'.archiveFlagValue ≠ CellValue.other tag)
    (hflag : r.archiveFlagValue = CellValue.str s)
    (hyes : strLower s = archiveFlag)
    (hfresh : (r.owner, r.id) ∉ fs2.itemFolders)
    (hty : r.ty ∈ lst_file_types)
    (hitem : svc2.getItem r.id = Option.some item)
    (hfail : svc2.downloadOk r.id = false) :
    (runSweep svc fs rows).err = Option.none ∧
    runSweep svc2 fs2 (r :: rs) =
      ⟨(processRow svc2 fs2 r).fs, (processRow svc2 fs2 r).calls,
       Option.some (Err.downloadError r.id)⟩ := by
  have he : (processRow svc2 fs2 r).err =
      Option.some (Err.downloadError r.id) := by
    rw [processRow_fresh_dispatch svc2 fs2 r s hflag hyes hfresh]
    unfold dispatchStrategy
    simp only [hty, if_true]
    unfold fileAssetBranch
    rw [hitem]
    simp [hfail]
  exact ⟨runSweep_err_none svc fs rows hd hg hfl,
    runSweep_cons_some svc2 fs2 r rs _ he⟩

/-- Witness for C1 (amended): the containment part over a one-row inventory
against the all-succeeding service, and the abort part at the failing
FileAsset row followed by a pending second row. -/
theorem c1_failure_containment_witness :
    (runSweep svcDemo fs0 [rowFeature]).err = Option.none ∧
    runSweep svcDownloadFail fs0 (rowCsv :: [rowCsv2]) =
      ⟨(processRow svcDownloadFail fs0 rowCsv).fs,
       (processRow svcDownloadFail fs0 rowCsv).calls,
       Option.some (Err.downloadError "i1")⟩ :=
  c1_failure_containment svcDemo svcDownloadFail fs0 fs0 [rowFeature] rowCsv
    [rowCsv2] "yes" ⟨"T", "http://example/item"⟩ (fun _ => rfl) (fun _ => rfl)
    (by
      intro r' hr' tag h
      rcases List.mem_singleton.mp hr' with rfl
      simp [rowFeature] at h)
    rfl (by decide) (by decide) (by decide) rfl rfl
